import Mathlib

/-!
# Verification of the CyTRIM/PyTRIM transport core

A shallow embedding of the parts of the repository relevant to the
frozen claims:

* `pytrim/geometry3d.py` — the five geometry variants (`Planar`, `Box`,
  `Cylinder`, `Sphere`, `MultiLayer`), their containment tests,
  bounding boxes, the multilayer `get_layer_index`, and the default
  ray-marching `get_intersection`.
* `pytrim/trajectory.py` — the single-ion stepping loop
  (`trajectory` / `trajectory_with_path`), with the physics callees
  (`get_recoil_position`, `eloss`, `scatter`) kept abstract as an
  oracle, since they carry the random stream.
* `pytrim/simulation.py` — the sequential ensemble loop of
  `TRIMSimulation.run`, its statistics accumulators, the cooperative
  stop flag, and the parallel/sequential dispatch.

Python `float` values are modelled as rationals (`ℚ`); every float
that the claims touch is a rational number, and the control flow of
the embedded code only branches on comparisons that are exact in both
semantics.  Where IEEE rounding itself is the issue (claim C2) an
explicit binary64 rounding model over `ℚ` is used instead.
-/

namespace CyTRIM

/-- A 3-component position/direction vector (`numpy` arrays of size 3
in the source), with rational components. -/
structure Vec3 where
  x : ℚ
  y : ℚ
  z : ℚ
deriving DecidableEq, Repr

instance : Add Vec3 := ⟨fun a b => ⟨a.x + b.x, a.y + b.y, a.z + b.z⟩⟩

instance : SMul ℚ Vec3 := ⟨fun c v => ⟨c * v.x, c * v.y, c * v.z⟩⟩

/-- Componentwise halving, used by the bisection refinement
(`(current_pos + back_pos) / 2` in `geometry3d.py`). -/
def Vec3.half (v : Vec3) : Vec3 := ⟨v.x / 2, v.y / 2, v.z / 2⟩

/-- An axis-aligned bounding box, the return value of `get_bounds`
(`((x_min, x_max), (y_min, y_max), (z_min, z_max))` in the source). -/
structure Bounds where
  x_min : ℚ
  x_max : ℚ
  y_min : ℚ
  y_max : ℚ
  z_min : ℚ
  z_max : ℚ
deriving DecidableEq, Repr

/-- `p` lies outside the axis-aligned box `b`: some coordinate falls
strictly outside the corresponding closed interval. -/
def Bounds.outside (b : Bounds) (p : Vec3) : Bool :=
  decide (p.x < b.x_min ∨ b.x_max < p.x ∨ p.y < b.y_min ∨ b.y_max < p.y ∨
    p.z < b.z_min ∨ b.z_max < p.z)

/-! ## `geometry3d.PlanarGeometry` -/

/-- `PlanarGeometry(z_min, z_max)`: infinite slab in x–y, bounded in z. -/
structure PlanarGeometry where
  z_min : ℚ
  z_max : ℚ
deriving DecidableEq, Repr

/-- `PlanarGeometry.is_inside_target`: `z_min <= pos[2] <= z_max`. -/
def PlanarGeometry.is_inside_target (g : PlanarGeometry) (p : Vec3) : Bool :=
  decide (g.z_min ≤ p.z ∧ p.z ≤ g.z_max)

/-- `PlanarGeometry.get_bounds`: the source substitutes the "large but
finite" lateral extent `large = 5000.0` for the unbounded x–y
directions (comment in the source: for visualization). -/
def PlanarGeometry.get_bounds (g : PlanarGeometry) : Bounds :=
  ⟨-5000, 5000, -5000, 5000, g.z_min, g.z_max⟩

/-! ## `geometry3d.BoxGeometry` -/

/-- `BoxGeometry(x_min, x_max, y_min, y_max, z_min, z_max)`. -/
structure BoxGeometry where
  x_min : ℚ
  x_max : ℚ
  y_min : ℚ
  y_max : ℚ
  z_min : ℚ
  z_max : ℚ
deriving DecidableEq, Repr

/-- `BoxGeometry.is_inside_target`: all three coordinates within their
closed intervals. -/
def BoxGeometry.is_inside_target (g : BoxGeometry) (p : Vec3) : Bool :=
  decide (g.x_min ≤ p.x ∧ p.x ≤ g.x_max ∧ g.y_min ≤ p.y ∧ p.y ≤ g.y_max ∧
    g.z_min ≤ p.z ∧ p.z ≤ g.z_max)

/-- `BoxGeometry.get_bounds`. -/
def BoxGeometry.get_bounds (g : BoxGeometry) : Bounds :=
  ⟨g.x_min, g.x_max, g.y_min, g.y_max, g.z_min, g.z_max⟩

/-! ## `geometry3d.CylinderGeometry` -/

/-- `CylinderGeometry(radius, z_min, z_max, center_x, center_y)`:
axis along z.  The source also caches `radius_sq = radius * radius`;
here it is recomputed in the containment test. -/
structure CylinderGeometry where
  radius : ℚ
  z_min : ℚ
  z_max : ℚ
  center_x : ℚ
  center_y : ℚ
deriving DecidableEq, Repr

/-- `CylinderGeometry.is_inside_target`: z within bounds and squared
lateral distance from the axis at most `radius_sq`. -/
def CylinderGeometry.is_inside_target (g : CylinderGeometry) (p : Vec3) : Bool :=
  if ¬ (g.z_min ≤ p.z ∧ p.z ≤ g.z_max) then false
  else
    let dx := p.x - g.center_x
    let dy := p.y - g.center_y
    decide (dx * dx + dy * dy ≤ g.radius * g.radius)

/-- `CylinderGeometry.get_bounds`. -/
def CylinderGeometry.get_bounds (g : CylinderGeometry) : Bounds :=
  ⟨g.center_x - g.radius, g.center_x + g.radius,
   g.center_y - g.radius, g.center_y + g.radius, g.z_min, g.z_max⟩

/-! ## `geometry3d.SphereGeometry` -/

/-- `SphereGeometry(radius, center_x, center_y, center_z)`. -/
structure SphereGeometry where
  radius : ℚ
  center : Vec3
deriving DecidableEq, Repr

/-- `SphereGeometry.is_inside_target`: squared distance from the
center at most `radius_sq`. -/
def SphereGeometry.is_inside_target (g : SphereGeometry) (p : Vec3) : Bool :=
  let dx := p.x - g.center.x
  let dy := p.y - g.center.y
  let dz := p.z - g.center.z
  decide (dx * dx + dy * dy + dz * dz ≤ g.radius * g.radius)

/-- `SphereGeometry.get_bounds`. -/
def SphereGeometry.get_bounds (g : SphereGeometry) : Bounds :=
  ⟨g.center.x - g.radius, g.center.x + g.radius,
   g.center.y - g.radius, g.center.y + g.radius,
   g.center.z - g.radius, g.center.z + g.radius⟩

/-! ## `geometry3d.MultiLayerGeometry` -/

/-- `MultiLayerGeometry(layer_z_positions, x_min, x_max, y_min, y_max)`.
The constructor stores `sorted(layer_z_positions)`; `layer_z` here is
that sorted list, and theorems that need sortedness take it as a
hypothesis.  The lateral bounds default to `±np.inf` in the source;
they are modelled for arbitrary finite rational values (with the
infinite defaults the lateral test never fails, so lateral exclusion
is vacuous there). -/
structure MultiLayerGeometry where
  layer_z : List ℚ
  x_min : ℚ
  x_max : ℚ
  y_min : ℚ
  y_max : ℚ
deriving DecidableEq, Repr

/-- `self.z_min = self.layer_z[0]` (the source would raise on an empty
list; the default `0` is never reached by any claim, which all assume
at least two boundaries). -/
def MultiLayerGeometry.z_min (g : MultiLayerGeometry) : ℚ := g.layer_z.headD 0

/-- `self.z_max = self.layer_z[-1]`. -/
def MultiLayerGeometry.z_max (g : MultiLayerGeometry) : ℚ := g.layer_z.getLastD 0

/-- `MultiLayerGeometry.is_inside_target`: lateral bounds first, then
`z_min <= pos[2] <= z_max`. -/
def MultiLayerGeometry.is_inside_target (g : MultiLayerGeometry) (p : Vec3) : Bool :=
  if ¬ (g.x_min ≤ p.x ∧ p.x ≤ g.x_max ∧ g.y_min ≤ p.y ∧ p.y ≤ g.y_max) then false
  else decide (g.z_min ≤ p.z ∧ p.z ≤ g.z_max)

/-- `MultiLayerGeometry.get_bounds`. -/
def MultiLayerGeometry.get_bounds (g : MultiLayerGeometry) : Bounds :=
  ⟨g.x_min, g.x_max, g.y_min, g.y_max, g.z_min, g.z_max⟩

/-- The `for i in range(len(self.layer_z) - 1)` scan of
`get_layer_index`: return the first index `i` (starting from `i0`)
with `layer_z[i] <= z < layer_z[i+1]`. -/
def layerScan (z : ℚ) : List ℚ → ℕ → Option ℕ
  | a :: b :: rest, i =>
      if a ≤ z ∧ z < b then some i else layerScan z (b :: rest) (i + 1)
  | _, _ => none

/-- `MultiLayerGeometry.get_layer_index`: `-1` outside `[z_min, z_max]`,
otherwise the half-open-interval scan, with the `z == z_max` case
patched to the last layer index `len(layer_z) - 2` after the scan. -/
def MultiLayerGeometry.get_layer_index (g : MultiLayerGeometry) (z : ℚ) : ℤ :=
  if z < g.z_min ∨ z > g.z_max then -1
  else
    match layerScan z g.layer_z 0 with
    | some i => (i : ℤ)
    | none => if z = g.z_max then (g.layer_z.length : ℤ) - 2 else -1

/-- Spec-side counterpart of `get_layer_index`, for the refinement
claim C6, following the spec's words: half-open intervals
`[z_i, z_i+1)` except the final interval, which is closed; a sentinel
`-1` outside.  `specScan` returns the index of the interval containing
`z` under that convention. -/
def specScan (z : ℚ) : List ℚ → ℕ → Option ℕ
  | [a, b], i => if a ≤ z ∧ z ≤ b then some i else none
  | a :: b :: c :: rest, i =>
      if a ≤ z ∧ z < b then some i else specScan z (b :: c :: rest) (i + 1)
  | _, _ => none

/-- Spec-side layer index: the interval index under the
half-open-except-last convention, or the sentinel `-1`. -/
def layerIndexSpec (bs : List ℚ) (z : ℚ) : ℤ :=
  match specScan z bs 0 with
  | some i => (i : ℤ)
  | none => -1

/-! ## `geometry3d.Geometry3D.get_intersection` (default ray march)

The default `get_intersection` is shared by all variants, depending on
the geometry only through its `is_inside_target` method; it is
embedded over an arbitrary containment predicate `inT`.  `max_distance
= 10000.0` and `step_size = 10.0`, so the marching distance is exactly
`10 * k` after `k` increments (these values are exact in binary
floating point as well, so the embedding's loop guard agrees with the
source's). -/

def max_distance : ℚ := 10000

def step_size : ℚ := 10

/-- The 10-iteration bisection refinement (`for i in range(10)` in the
source): keep the sample whose containment state equals `target` (the
state of `current_pos`) as `cur`, the other endpoint as `back`. -/
def bisectRefine (inT : Vec3 → Bool) (target : Bool) : ℕ → Vec3 → Vec3 → Vec3
  | 0, cur, _ => cur
  | n + 1, cur, back =>
      let mid := (cur + back).half
      if inT mid == target then bisectRefine inT target n mid back
      else bisectRefine inT target n cur mid

/-- Number of refinement iterations `bisectRefine` performs (each
branch of the loop body counts as one iteration). -/
def bisectIters (inT : Vec3 → Bool) (target : Bool) : ℕ → Vec3 → Vec3 → ℕ
  | 0, _, _ => 0
  | n + 1, cur, back =>
      let mid := (cur + back).half
      if inT mid == target then 1 + bisectIters inT target n mid back
      else 1 + bisectIters inT target n cur mid

/-- The `while distance < max_distance` marching loop, entered with
`distance = step_size * k`: sample `pos + distance * dir`, return the
bisection-refined crossing point together with the coarse marching
distance on a containment flip, otherwise advance by `step_size`.
Terminates because the guard forces `k < 1000`. -/
def marchFrom (inT : Vec3 → Bool) (pos dir : Vec3) (wasInside : Bool) (k : ℕ) :
    Option (Vec3 × ℚ) :=
  if h : step_size * (k : ℚ) < max_distance then
    let distance : ℚ := step_size * (k : ℚ)
    let cur := pos + distance • dir
    let isIn := inT cur
    if wasInside != isIn then
      let back := pos + (distance - step_size) • dir
      some (bisectRefine inT isIn 10 cur back, distance)
    else marchFrom inT pos dir wasInside (k + 1)
  else none
termination_by 1000 - k
decreasing_by
  have hk : (k : ℚ) < 1000 := by
    have h10 : (0 : ℚ) < 10 := by norm_num
    rw [step_size, max_distance] at h
    linarith
  have hk' : k < 1000 := by exact_mod_cast hk
  omega

/-- Number of iterations the marching loop executes starting at step
index `k` (the flip iteration included). -/
def marchIters (inT : Vec3 → Bool) (pos dir : Vec3) (wasInside : Bool) (k : ℕ) : ℕ :=
  if h : step_size * (k : ℚ) < max_distance then
    let distance : ℚ := step_size * (k : ℚ)
    let cur := pos + distance • dir
    if wasInside != inT cur then 1
    else 1 + marchIters inT pos dir wasInside (k + 1)
  else 0
termination_by 1000 - k
decreasing_by
  have hk : (k : ℚ) < 1000 := by
    have h10 : (0 : ℚ) < 10 := by norm_num
    rw [step_size, max_distance] at h
    linarith
  have hk' : k < 1000 := by exact_mod_cast hk
  omega

/-- `Geometry3D.get_intersection` for a geometry whose containment
test is `inT`: `was_inside = is_inside_target(pos)`, then march from
`distance = 0`.  `none` models the source's `(None, np.inf)` return. -/
def get_intersection (inT : Vec3 → Bool) (pos dir : Vec3) : Option (Vec3 × ℚ) :=
  marchFrom inT pos dir (inT pos) 0

/-! ## `trajectory.py` — the single-ion stepping loop

`trajectory.setup()` sets the module-level minimum trackable energy to
the constant `EMIN = 5.0` eV; it takes no parameters, so no configured
value can change it. -/

def EMIN : ℚ := 5

/-- The physics callees of the stepping loop.
`select_recoil.get_recoil_position`, `estop.eloss` and
`scatter.scatter` are imported by `trajectory.py` from modules whose
pure-Python sources are not part of the verified tree, and the first
and third consume a pseudo-random stream.  They are abstracted as an
oracle over an arbitrary stream-state type `σ`: `recoil` returns the
free-flight length, the impact parameter, the recoil direction and the
advanced stream; `eloss` is the deterministic electronic energy loss;
`scatterK` returns the outgoing direction, post-collision energy and
the advanced stream.  Every concrete execution of the source is one
instance of this oracle. -/
structure PhysicsOracle (σ : Type) where
  recoil : σ → Vec3 → Vec3 → ℚ × ℚ × Vec3 × σ
  eloss : ℚ → ℚ → ℚ
  scatterK : σ → ℚ → Vec3 → ℚ → Vec3 → Vec3 × ℚ × σ

/-- Terminal data of one ion: the return tuple of
`trajectory_with_path` (`pos, dir, e, is_inside, path`). -/
structure TrajResult where
  pos : Vec3
  dir : Vec3
  e : ℚ
  is_inside : Bool
  path : Option (List Vec3)
deriving DecidableEq, Repr

/-- The `while e > EMIN` loop shared by `trajectory` and
`trajectory_with_path`.  The source's loop has no iteration bound, so
it is embedded with explicit fuel: `none` means the source would still
be iterating after `fuel` collisions; `some` is an actual return of
the source.  Per iteration: sample the next collision, apply the
electronic loss over the free path, advance the position, append to
the path if recording, exit with `is_inside = false` if the new
position left the target, otherwise scatter and continue. -/
def trajLoop {σ : Type} (O : PhysicsOracle σ) (inT : Vec3 → Bool) (record : Bool) :
    ℕ → σ → Vec3 → Vec3 → ℚ → List Vec3 → Option (TrajResult × σ)
  | 0, s, pos, dir, e, path =>
      if e > EMIN then none
      else some (⟨pos, dir, e, true, if record then some path else none⟩, s)
  | fuel + 1, s, pos, dir, e, path =>
      if e > EMIN then
        let r := O.recoil s pos dir
        let e1 := e - O.eloss e r.1
        let pos1 := pos + r.1 • dir
        let path1 := if record then path ++ [pos1] else path
        if ¬ inT pos1 then
          some (⟨pos1, dir, e1, false, if record then some path1 else none⟩, r.2.2.2)
        else
          let sc := O.scatterK r.2.2.2 e1 dir r.2.1 r.2.2.1
          trajLoop O inT record fuel sc.2.2 pos1 sc.1 sc.2.1 path1
      else some (⟨pos, dir, e, true, if record then some path else none⟩, s)

/-- `trajectory_with_path(pos_init, dir_init, e_init, record_path)`:
the path starts as `[pos_init]` when recording (`None` otherwise,
modelled by the `Option` in the result). -/
def trajectory_with_path {σ : Type} (O : PhysicsOracle σ) (inT : Vec3 → Bool)
    (fuel : ℕ) (s : σ) (pos dir : Vec3) (e : ℚ) (record : Bool) :
    Option (TrajResult × σ) :=
  trajLoop O inT record fuel s pos dir e (if record then [pos] else [])

/-- `trajectory(pos_init, dir_init, e_init)`: the same loop without
recording. -/
def trajectory {σ : Type} (O : PhysicsOracle σ) (inT : Vec3 → Bool)
    (fuel : ℕ) (s : σ) (pos dir : Vec3) (e : ℚ) : Option (TrajResult × σ) :=
  trajLoop O inT false fuel s pos dir e []

/-! ## `simulation.py` — `SimulationResults` and the sequential run loop

`TRIMSimulation.run` calls `trajectory.trajectory_with_path` once per
ion; the per-ion terminal data is abstracted as a function
`ion : ℕ → TrajResult` of the ion index (each concrete execution,
with its random stream, determines one such function).  `math.sqrt`
operates on floats; it is abstracted as a function `sqrtQ : ℚ → ℚ`
(none of the claims proved below depends on its values).  The
cooperative stop flag `_should_stop` is modelled by
`stop : ℕ → Bool`, the value the flag is read to have at the top of
iteration `i`.  The progress callback has no effect on the results
and is omitted. -/

/-- The fields of `SimulationResults.__init__` that the claims touch
(`simulation_time` is wall-clock and omitted). -/
structure SimulationResults where
  count_inside : ℕ
  total_ions : ℕ
  mean_x : ℚ
  mean_y : ℚ
  mean_z : ℚ
  std_x : ℚ
  std_y : ℚ
  std_z : ℚ
  mean_r : ℚ
  std_r : ℚ
  stopped_depths : List ℚ
  stopped_positions : List (ℚ × ℚ × ℚ)
  trajectories : List (List Vec3)
deriving DecidableEq, Repr

/-- `SimulationResults()`: zeros and empty lists. -/
def SimulationResults.init : SimulationResults :=
  ⟨0, 0, 0, 0, 0, 0, 0, 0, 0, 0, [], [], []⟩

/-- Property `stopped`: alias for `count_inside`. -/
def SimulationResults.stopped (r : SimulationResults) : ℕ := r.count_inside

/-- Property `backscattered`: the source returns the constant `0`
("not tracked yet"). -/
def SimulationResults.backscattered (_ : SimulationResults) : ℕ := 0

/-- Property `transmitted`: `total_ions - count_inside`. -/
def SimulationResults.transmitted (r : SimulationResults) : ℕ :=
  r.total_ions - r.count_inside

/-- The body of one sequential-loop iteration for ion `i` with
terminal data `t`: the `if is_inside` statistics accumulation followed
by the `if record_trajectories and i < max_trajectories and traj is
not None` trajectory recording. -/
def accumIon (sqrtQ : ℚ → ℚ) (record : Bool) (maxT : ℕ) (i : ℕ) (t : TrajResult)
    (res : SimulationResults) : SimulationResults :=
  let res1 :=
    if t.is_inside then
      let r := sqrtQ (t.pos.x * t.pos.x + t.pos.y * t.pos.y)
      { res with
        count_inside := res.count_inside + 1
        mean_z := res.mean_z + t.pos.z
        std_z := res.std_z + t.pos.z * t.pos.z
        stopped_depths := res.stopped_depths ++ [t.pos.z]
        stopped_positions := res.stopped_positions ++ [(t.pos.x, t.pos.y, t.pos.z)]
        mean_x := res.mean_x + t.pos.x
        mean_y := res.mean_y + t.pos.y
        std_x := res.std_x + t.pos.x * t.pos.x
        std_y := res.std_y + t.pos.y * t.pos.y
        mean_r := res.mean_r + r
        std_r := res.std_r + r * r }
    else res
  if record ∧ i < maxT ∧ t.path.isSome then
    { res1 with trajectories := res1.trajectories ++ [t.path.getD []] }
  else res1

/-- The `for i in range(...)` loop with the `if self._should_stop:
break` check at the top of each iteration; `i` is the current index,
the first argument of the recursion counts the remaining iterations. -/
def runLoop (sqrtQ : ℚ → ℚ) (ion : ℕ → TrajResult) (stop : ℕ → Bool)
    (record : Bool) (maxT : ℕ) : ℕ → ℕ → SimulationResults → SimulationResults
  | _, 0, res => res
  | i, n + 1, res =>
      if stop i then res
      else runLoop sqrtQ ion stop record maxT (i + 1) n (accumIon sqrtQ record maxT i (ion i) res)

/-- The final `if self.results.count_inside > 0` statistics block:
divide the running sums by `n` and replace the running
sums-of-squares by `sqrt(sumsq/n - mean^2)` — with no clamping of the
radicand. -/
def finalize (sqrtQ : ℚ → ℚ) (res : SimulationResults) : SimulationResults :=
  if res.count_inside > 0 then
    let n : ℚ := (res.count_inside : ℚ)
    let mean_z := res.mean_z / n
    let mean_x := res.mean_x / n
    let mean_y := res.mean_y / n
    let mean_r := res.mean_r / n
    { res with
      mean_z := mean_z
      std_z := sqrtQ (res.std_z / n - mean_z * mean_z)
      mean_x := mean_x
      mean_y := mean_y
      std_x := sqrtQ (res.std_x / n - mean_x * mean_x)
      std_y := sqrtQ (res.std_y / n - mean_y * mean_y)
      mean_r := mean_r
      std_r := sqrtQ (res.std_r / n - mean_r * mean_r) }
  else res

/-- `TRIMSimulation.run` (sequential path): initialize the results
with `total_ions = nion` (this field is never written again), run the
loop from `i = 0`, finalize. -/
def run (sqrtQ : ℚ → ℚ) (ion : ℕ → TrajResult) (stop : ℕ → Bool)
    (record : Bool) (maxT nion : ℕ) : SimulationResults :=
  finalize sqrtQ
    (runLoop sqrtQ ion stop record maxT 0 nion
      { SimulationResults.init with total_ions := nion })

/-- Which of the two execution paths `TRIMSimulation.run` takes. -/
inductive ExecPath where
  | parallel : ExecPath
  | sequential : ExecPath
deriving DecidableEq, Repr

/-- The dispatch at the top of `TRIMSimulation.run`: the parallel
branch runs exactly when `_use_parallel and simulation_parallel is not
None and self.params.geometry_type == 'planar'`; every other case
falls through (after an informational message for non-planar
geometry) to the sequential loop.  `parallelResult` abstracts the
result assembled from `simulation_parallel.run_parallel_simulation`
(a compiled module whose source is not part of the verified tree). -/
def run_dispatch (useParallel parallelLoaded : Bool) (geometry_type : String)
    (parallelResult : SimulationResults) (sqrtQ : ℚ → ℚ) (ion : ℕ → TrajResult)
    (stop : ℕ → Bool) (record : Bool) (maxT nion : ℕ) : ExecPath × SimulationResults :=
  if useParallel && parallelLoaded && (geometry_type == "planar") then
    (ExecPath.parallel, parallelResult)
  else
    (ExecPath.sequential, run sqrtQ ion stop record maxT nion)

/-- Reference loop: the sequential loop with the stop flag never set,
processing all remaining ions.  Used to state what an early-stopped
run actually processed. -/
def runAllLoop (sqrtQ : ℚ → ℚ) (ion : ℕ → TrajResult) (record : Bool) (maxT : ℕ) :
    ℕ → ℕ → SimulationResults → SimulationResults
  | _, 0, res => res
  | i, n + 1, res =>
      runAllLoop sqrtQ ion record maxT (i + 1) n (accumIon sqrtQ record maxT i (ion i) res)

/-- The last element of `a :: l` (structural helper for the
multilayer proofs). -/
def lastAux (a : ℚ) : List ℚ → ℚ
  | [] => a
  | b :: t => lastAux b t

/-! ## IEEE binary64 model for the statistics finalization (claim C2)

The statistics accumulation and finalization of `TRIMSimulation.run`
run on Python floats, i.e. IEEE-754 binary64 with round to nearest,
ties to even.  `fl` is that rounding on `ℚ` (normal range; valid for
magnitudes in `[2^-70, 2^10)`, which covers every value the failing
input below produces), and `floatAccumX` / `stdRadicandX` are the
source's x-axis accumulation and finalization with `fl` applied after
every arithmetic operation, exactly where Python rounds. -/

/-- `2^e` over `ℚ` for an integer exponent. -/
def pow2 (e : ℤ) : ℚ := (2 : ℚ) ^ e

/-- Bounded upward search for the binary exponent: the `e` with
`2^e ≤ a < 2^(e+1)`, found from a starting guess in at most the given
number of steps. -/
def expSearch (a : ℚ) : ℕ → ℤ → ℤ
  | 0, e => e
  | n + 1, e => if a < pow2 (e + 1) then e else expSearch a n (e + 1)

/-- Binary exponent of `a`, valid for `a ∈ [2^-70, 2^10)`. -/
def binExp (a : ℚ) : ℤ := expSearch a 80 (-70)

/-- IEEE-754 binary64 rounding (round to nearest, ties to even) of a
rational in the normal range: scale the magnitude to a 53-bit
mantissa in `[2^52, 2^53)`, round it to an integer, and scale back. -/
def fl (x : ℚ) : ℚ :=
  if x = 0 then 0
  else
    let a := if x < 0 then -x else x
    let e := binExp a
    let scale := pow2 (52 - e)
    let m := a * scale
    let n0 := ⌊m⌋
    let fr := m - (n0 : ℚ)
    let n1 : ℤ :=
      if fr < 1 / 2 then n0
      else if 1 / 2 < fr then n0 + 1
      else if n0 % 2 = 0 then n0 else n0 + 1
    (if x < 0 then -(1 : ℚ) else 1) * (n1 : ℚ) / scale

/-- The x-axis running sums of the sequential loop
(`mean_x += pos[0]`, `std_x += pos[0]**2`) in binary64 arithmetic,
over the stopped x-coordinates `xs`. -/
def floatAccumX (xs : List ℚ) : ℚ × ℚ :=
  xs.foldl (fun acc x => (fl (acc.1 + x), fl (acc.2 + fl (x * x)))) (0, 0)

/-- The radicand `std_x / n - mean_x**2` that the finalization block
hands to `math.sqrt` (after `mean_x /= n`), in binary64 arithmetic,
for a run whose `n` ions all stopped inside at x-coordinates `xs`. -/
def stdRadicandX (xs : List ℚ) : ℚ :=
  let n : ℚ := (xs.length : ℚ)
  let acc := floatAccumX xs
  let mean := fl (acc.1 / n)
  fl (fl (acc.2 / n) - fl (mean * mean))

/-! ## Theorems -/

theorem Vec3.add_def (a b : Vec3) : a + b = ⟨a.x + b.x, a.y + b.y, a.z + b.z⟩ := rfl

theorem Vec3.smul_def (c : ℚ) (v : Vec3) : c • v = ⟨c * v.x, c * v.y, c * v.z⟩ := rfl

set_option maxHeartbeats 4000000 in
/-- C2, code-bug evidence: for a run whose three ions all stop inside
at x-coordinate `0.1` (i.e. the binary64 value `fl (1/10)`), the
radicand `std_x / n - mean_x**2` computed by the finalization block in
float arithmetic is `-2^-59 < 0`; the source passes it to `math.sqrt`
with no `max(0, ·)` clamp, so the run raises `ValueError: math domain
error` — the claim's (and the spec's) required clamping is absent. -/
theorem stdRadicand_negative :
    stdRadicandX [fl (1 / 10), fl (1 / 10), fl (1 / 10)] < 0 := by
  have h0 : fl (1 / 10) = 3602879701896397 / 36028797018963968 := by
    norm_num [fl, binExp, expSearch, pow2]
  have hq1 : fl (3602879701896397 / 36028797018963968) =
      3602879701896397 / 36028797018963968 := by
    norm_num [fl, binExp, expSearch, pow2]
  have hy : fl (12980742146337070512478121581609 / 1298074214633706907132624082305024) =
      1441151880758559 / 144115188075855872 := by
    norm_num [fl, binExp, expSearch, pow2]
  have hs1 : fl (1441151880758559 / 144115188075855872) =
      1441151880758559 / 144115188075855872 := by
    norm_num [fl, binExp, expSearch, pow2]
  have hq2 : fl (3602879701896397 / 18014398509481984) =
      3602879701896397 / 18014398509481984 := by
    norm_num [fl, binExp, expSearch, pow2]
  have hs2 : fl (1441151880758559 / 72057594037927936) =
      1441151880758559 / 72057594037927936 := by
    norm_num [fl, binExp, expSearch, pow2]
  have hq3 : fl (10808639105689191 / 36028797018963968) =
      1351079888211149 / 4503599627370496 := by
    norm_num [fl, binExp, expSearch, pow2]
  have hs3 : fl (4323455642275677 / 144115188075855872) =
      4323455642275677 / 144115188075855872 := by
    norm_num [fl, binExp, expSearch, pow2]
  have hmean : fl (1351079888211149 / 13510798882111488) =
      7205759403792795 / 72057594037927936 := by
    norm_num [fl, binExp, expSearch, pow2]
  have ht2 : fl (51922968585348296461431293912025 / 5192296858534827628530496329220096) =
      5764607523034237 / 576460752303423488 := by
    norm_num [fl, binExp, expSearch, pow2]
  have hrad : fl (-(1 / 576460752303423488)) = -(1 / 576460752303423488) := by
    norm_num [fl, binExp, expSearch, pow2]
  norm_num [stdRadicandX, floatAccumX, List.foldl_cons, List.foldl_nil,
    h0, hq1, hy, hs1, hq2, hs2, hq3, hs3, hmean, ht2, hrad]

/-- C3, counterexample: for `PlanarGeometry(0, 4000)` the position
`(6000, 0, 100)` lies outside the box returned by `get_bounds` (its
x-coordinate exceeds the lateral extent 5000 the source reports), yet
`is_inside_target` returns `True`, because the planar containment test
only inspects z.  This refutes the claim for the Planar variant. -/
theorem planar_outside_bounds_counterexample :
    (PlanarGeometry.get_bounds ⟨0, 4000⟩).outside ⟨6000, 0, 100⟩ = true ∧
    PlanarGeometry.is_inside_target ⟨0, 4000⟩ ⟨6000, 0, 100⟩ = true := by
  decide

/-- C3, amended: for the Box, Cylinder, Sphere and MultiLayer variants
(with nonnegative radii, per the spec's `radius > 0` invariant), any
position outside the box returned by `get_bounds` is classified
outside by `is_inside_target`; for the Planar variant this holds only
for the z-coordinate, since its reported lateral bounds (±5000) are a
finite visualization proxy for an unbounded slab. -/
theorem outside_bounds_not_inside (b : BoxGeometry) (c : CylinderGeometry)
    (s : SphereGeometry) (m : MultiLayerGeometry) (g : PlanarGeometry)
    (p q u v w : Vec3) (hc : 0 ≤ c.radius) (hs : 0 ≤ s.radius) :
    (b.get_bounds.outside p = true → b.is_inside_target p = false) ∧
    (c.get_bounds.outside q = true → c.is_inside_target q = false) ∧
    (s.get_bounds.outside u = true → s.is_inside_target u = false) ∧
    (m.get_bounds.outside v = true → m.is_inside_target v = false) ∧
    (w.z < g.z_min ∨ g.z_max < w.z → g.is_inside_target w = false) := by
  refine ⟨?_, ?_, ?_, ?_, ?_⟩
  · intro h
    simp only [Bounds.outside, BoxGeometry.get_bounds, decide_eq_true_eq] at h
    simp only [BoxGeometry.is_inside_target, decide_eq_false_iff_not]
    rintro ⟨h1, h2, h3, h4, h5, h6⟩
    rcases h with h | h | h | h | h | h <;> linarith
  · intro h
    simp only [Bounds.outside, CylinderGeometry.get_bounds, decide_eq_true_eq] at h
    simp only [CylinderGeometry.is_inside_target]
    by_cases hz : c.z_min ≤ q.z ∧ q.z ≤ c.z_max
    · rw [if_neg (by simpa using hz)]
      simp only [decide_eq_false_iff_not, not_le]
      rcases h with h | h | h | h | h | h
      · nlinarith [sq_nonneg (q.y - c.center_y)]
      · nlinarith [sq_nonneg (q.y - c.center_y)]
      · nlinarith [sq_nonneg (q.x - c.center_x)]
      · nlinarith [sq_nonneg (q.x - c.center_x)]
      · exact absurd hz.1 (by linarith)
      · exact absurd hz.2 (by linarith)
    · rw [if_pos (by simpa using hz)]
  · intro h
    simp only [Bounds.outside, SphereGeometry.get_bounds, decide_eq_true_eq] at h
    simp only [SphereGeometry.is_inside_target, decide_eq_false_iff_not, not_le]
    rcases h with h | h | h | h | h | h
    · nlinarith [sq_nonneg (u.y - s.center.y), sq_nonneg (u.z - s.center.z)]
    · nlinarith [sq_nonneg (u.y - s.center.y), sq_nonneg (u.z - s.center.z)]
    · nlinarith [sq_nonneg (u.x - s.center.x), sq_nonneg (u.z - s.center.z)]
    · nlinarith [sq_nonneg (u.x - s.center.x), sq_nonneg (u.z - s.center.z)]
    · nlinarith [sq_nonneg (u.x - s.center.x), sq_nonneg (u.y - s.center.y)]
    · nlinarith [sq_nonneg (u.x - s.center.x), sq_nonneg (u.y - s.center.y)]
  · intro h
    simp only [Bounds.outside, MultiLayerGeometry.get_bounds, decide_eq_true_eq] at h
    simp only [MultiLayerGeometry.is_inside_target]
    by_cases hl : m.x_min ≤ v.x ∧ v.x ≤ m.x_max ∧ m.y_min ≤ v.y ∧ v.y ≤ m.y_max
    · rw [if_neg (by simpa using hl)]
      simp only [decide_eq_false_iff_not]
      rintro ⟨h1, h2⟩
      obtain ⟨l1, l2, l3, l4⟩ := hl
      rcases h with h | h | h | h | h | h <;> linarith
    · rw [if_pos (by simpa using hl)]
  · intro h
    simp only [PlanarGeometry.is_inside_target, decide_eq_false_iff_not]
    rintro ⟨h1, h2⟩
    rcases h with h | h <;> linarith

/-- Witness for `outside_bounds_not_inside` at concrete geometries. -/
theorem outside_bounds_not_inside_witness :
    ((BoxGeometry.mk (-300) 300 (-300) 300 0 1000).get_bounds.outside ⟨350, 0, 500⟩ = true →
      (BoxGeometry.mk (-300) 300 (-300) 300 0 1000).is_inside_target ⟨350, 0, 500⟩ = false) ∧
    ((CylinderGeometry.mk 200 0 1000 0 0).get_bounds.outside ⟨300, 0, 500⟩ = true →
      (CylinderGeometry.mk 200 0 1000 0 0).is_inside_target ⟨300, 0, 500⟩ = false) ∧
    ((SphereGeometry.mk 400 ⟨0, 0, 500⟩).get_bounds.outside ⟨0, 0, 1000⟩ = true →
      (SphereGeometry.mk 400 ⟨0, 0, 500⟩).is_inside_target ⟨0, 0, 1000⟩ = false) ∧
    ((MultiLayerGeometry.mk [0, 100, 300, 500] (-500) 500 (-500) 500).get_bounds.outside
        ⟨0, 0, 600⟩ = true →
      (MultiLayerGeometry.mk [0, 100, 300, 500] (-500) 500 (-500) 500).is_inside_target
        ⟨0, 0, 600⟩ = false) ∧
    ((⟨0, 0, 600⟩ : Vec3).z < (0 : ℚ) ∨ (4000 : ℚ) < (⟨0, 0, 600⟩ : Vec3).z →
      PlanarGeometry.is_inside_target ⟨0, 4000⟩ ⟨0, 0, 600⟩ = false) :=
  outside_bounds_not_inside (BoxGeometry.mk (-300) 300 (-300) 300 0 1000)
    (CylinderGeometry.mk 200 0 1000 0 0) (SphereGeometry.mk 400 ⟨0, 0, 500⟩)
    (MultiLayerGeometry.mk [0, 100, 300, 500] (-500) 500 (-500) 500)
    (PlanarGeometry.mk 0 4000) ⟨350, 0, 500⟩ ⟨300, 0, 500⟩ ⟨0, 0, 1000⟩ ⟨0, 0, 600⟩
    ⟨0, 0, 600⟩ (by norm_num) (by norm_num)

/-- C7: a run with `n_ions = 0` never enters the loop, the
`count_inside > 0` finalization block is skipped, and the result keeps
`count_inside = 0`, `total_ions = 0` and every mean and standard
deviation at the initializer value `0.0`; the embedded `run` is a
total function, so no exception is raised. -/
theorem run_zero_ions (sqrtQ : ℚ → ℚ) (ion : ℕ → TrajResult) (stop : ℕ → Bool)
    (record : Bool) (maxT : ℕ) :
    (run sqrtQ ion stop record maxT 0).count_inside = 0 ∧
    (run sqrtQ ion stop record maxT 0).total_ions = 0 ∧
    (run sqrtQ ion stop record maxT 0).mean_x = 0 ∧
    (run sqrtQ ion stop record maxT 0).mean_y = 0 ∧
    (run sqrtQ ion stop record maxT 0).mean_z = 0 ∧
    (run sqrtQ ion stop record maxT 0).std_x = 0 ∧
    (run sqrtQ ion stop record maxT 0).std_y = 0 ∧
    (run sqrtQ ion stop record maxT 0).std_z = 0 ∧
    (run sqrtQ ion stop record maxT 0).mean_r = 0 ∧
    (run sqrtQ ion stop record maxT 0).std_r = 0 :=
  ⟨rfl, rfl, rfl, rfl, rfl, rfl, rfl, rfl, rfl, rfl⟩

/-- C9: with parallel execution enabled (`_use_parallel` set and the
parallel module loaded), `TRIMSimulation.run` takes the parallel
branch exactly when `geometry_type == 'planar'`; for any other
geometry type it falls through (after the informational message) to
the sequential loop and returns that loop's `SimulationResults`. -/
theorem parallel_only_planar (useP loaded : Bool) (gt : String)
    (pr : SimulationResults) (sqrtQ : ℚ → ℚ) (ion : ℕ → TrajResult) (stop : ℕ → Bool)
    (record : Bool) (maxT nion : ℕ) (hp : useP = true) (hl : loaded = true) :
    ((run_dispatch useP loaded gt pr sqrtQ ion stop record maxT nion).1 =
        ExecPath.parallel ↔ gt = "planar") ∧
    (gt ≠ "planar" →
      (run_dispatch useP loaded gt pr sqrtQ ion stop record maxT nion).2 =
        run sqrtQ ion stop record maxT nion) := by
  subst hp hl
  by_cases hgt : gt = "planar"
  · subst hgt
    simp [run_dispatch]
  · simp [run_dispatch, beq_iff_eq, hgt]

/-- Witness for `parallel_only_planar` at `geometry_type = "sphere"`. -/
theorem parallel_only_planar_witness :
    ((run_dispatch true true "sphere" SimulationResults.init (fun a => a)
        (fun _ => ⟨⟨0, 0, 0⟩, ⟨0, 0, 1⟩, 0, true, none⟩) (fun _ => false) false 10 0).1 =
        ExecPath.parallel ↔ "sphere" = "planar") ∧
    ("sphere" ≠ "planar" →
      (run_dispatch true true "sphere" SimulationResults.init (fun a => a)
        (fun _ => ⟨⟨0, 0, 0⟩, ⟨0, 0, 1⟩, 0, true, none⟩) (fun _ => false) false 10 0).2 =
        run (fun a => a) (fun _ => ⟨⟨0, 0, 0⟩, ⟨0, 0, 1⟩, 0, true, none⟩)
          (fun _ => false) false 10 0) :=
  parallel_only_planar true true "sphere" SimulationResults.init (fun a => a)
    (fun _ => ⟨⟨0, 0, 0⟩, ⟨0, 0, 1⟩, 0, true, none⟩) (fun _ => false) false 10 0 rfl rfl

/-- C10: if `e_init ≤ 5` (the `EMIN = 5.0` eV hard-coded by
`trajectory.setup`, which takes no parameters), the `while e > EMIN`
loop is never entered: `trajectory` and `trajectory_with_path` return
immediately — for every oracle, every containment predicate and every
fuel, so in particular no collision sampling and no containment check
can influence the result — with final position and energy equal to the
initial ones and `is_inside = True`, even when `inT pos = false`; and
the run loop's accumulation step then counts the ion as stopped
inside (`count_inside` is incremented). -/
theorem trajectory_below_emin {σ : Type} (O : PhysicsOracle σ) (inT : Vec3 → Bool)
    (fuel : ℕ) (s : σ) (pos dir : Vec3) (e : ℚ) (he : e ≤ 5)
    (sqrtQ : ℚ → ℚ) (record : Bool) (maxT i : ℕ) (res : SimulationResults) :
    trajectory O inT fuel s pos dir e = some (⟨pos, dir, e, true, none⟩, s) ∧
    trajectory_with_path O inT fuel s pos dir e true =
      some (⟨pos, dir, e, true, some [pos]⟩, s) ∧
    (accumIon sqrtQ record maxT i ⟨pos, dir, e, true, none⟩ res).count_inside =
      res.count_inside + 1 := by
  have hne : ¬ (EMIN < e) := by
    simp only [EMIN]
    exact not_lt.mpr he
  refine ⟨?_, ?_, ?_⟩
  · unfold trajectory
    cases fuel <;> (unfold trajLoop; rw [if_neg hne]; rfl)
  · unfold trajectory_with_path
    cases fuel <;> (unfold trajLoop; rw [if_neg hne]; rfl)
  · simp [accumIon]

/-- Witness for `trajectory_below_emin`: energy 3 eV ≤ 5 eV, starting
outside a target that contains nothing (`inT` constantly false). -/
theorem trajectory_below_emin_witness :
    trajectory (σ := Unit) ⟨fun s _ _ => (1, 0, ⟨0, 0, 1⟩, s), fun a _ => a,
        fun s _ d _ _ => (d, 0, s)⟩ (fun _ => false) 7 () ⟨0, 0, -50⟩ ⟨0, 0, 1⟩ 3 =
      some (⟨⟨0, 0, -50⟩, ⟨0, 0, 1⟩, 3, true, none⟩, ()) ∧
    trajectory_with_path (σ := Unit) ⟨fun s _ _ => (1, 0, ⟨0, 0, 1⟩, s), fun a _ => a,
        fun s _ d _ _ => (d, 0, s)⟩ (fun _ => false) 7 () ⟨0, 0, -50⟩ ⟨0, 0, 1⟩ 3 true =
      some (⟨⟨0, 0, -50⟩, ⟨0, 0, 1⟩, 3, true, some [⟨0, 0, -50⟩]⟩, ()) ∧
    (accumIon (fun a => a) false 10 0 ⟨⟨0, 0, -50⟩, ⟨0, 0, 1⟩, 3, true, none⟩
        SimulationResults.init).count_inside = SimulationResults.init.count_inside + 1 :=
  trajectory_below_emin ⟨fun s _ _ => (1, 0, ⟨0, 0, 1⟩, s), fun a _ => a,
    fun s _ d _ _ => (d, 0, s)⟩ (fun _ => false) 7 () ⟨0, 0, -50⟩ ⟨0, 0, 1⟩ 3
    (by norm_num) (fun a => a) false 10 0 SimulationResults.init

/-- Unfolding equation for `trajLoop` below the energy threshold. -/
theorem trajLoop_low {σ : Type} (O : PhysicsOracle σ) (inT : Vec3 → Bool) (record : Bool)
    (fuel : ℕ) (s : σ) (pos dir : Vec3) (e : ℚ) (path : List Vec3) (he : ¬ EMIN < e) :
    trajLoop O inT record fuel s pos dir e path =
      some (⟨pos, dir, e, true, if record then some path else none⟩, s) := by
  cases fuel <;> (unfold trajLoop; rw [if_neg he])

/-- Unfolding equation for `trajLoop` above the threshold with no fuel. -/
theorem trajLoop_zero {σ : Type} (O : PhysicsOracle σ) (inT : Vec3 → Bool) (record : Bool)
    (s : σ) (pos dir : Vec3) (e : ℚ) (path : List Vec3) (he : EMIN < e) :
    trajLoop O inT record 0 s pos dir e path = none := by
  unfold trajLoop
  rw [if_pos he]

/-- Unfolding equation for `trajLoop` above the threshold with fuel:
one collision step. -/
theorem trajLoop_succ {σ : Type} (O : PhysicsOracle σ) (inT : Vec3 → Bool) (record : Bool)
    (fuel : ℕ) (s : σ) (pos dir : Vec3) (e : ℚ) (path : List Vec3) (he : EMIN < e) :
    trajLoop O inT record (fuel + 1) s pos dir e path =
      (let r := O.recoil s pos dir
       let e1 := e - O.eloss e r.1
       let pos1 := pos + r.1 • dir
       let path1 := if record then path ++ [pos1] else path
       if ¬ inT pos1 then
         some (⟨pos1, dir, e1, false, if record then some path1 else none⟩, r.2.2.2)
       else
         let sc := O.scatterK r.2.2.2 e1 dir r.2.1 r.2.2.1
         trajLoop O inT record fuel sc.2.2 pos1 sc.1 sc.2.1 path1) := by
  conv_lhs => unfold trajLoop
  rw [if_pos he]

/-- Invariant of the recording loop: if the last recorded position is
the current position, then on any return the last recorded position
is the final position (and the trace is non-empty). -/
theorem trajLoop_path_last {σ : Type} (O : PhysicsOracle σ) (inT : Vec3 → Bool) (fuel : ℕ) :
    ∀ (s : σ) (pos dir : Vec3) (e : ℚ) (path : List Vec3) (t : TrajResult) (s' : σ),
      path.getLast? = some pos →
      trajLoop O inT true fuel s pos dir e path = some (t, s') →
      ∃ l, t.path = some l ∧ l ≠ [] ∧ l.getLast? = some t.pos := by
  induction fuel with
  | zero =>
      intro s pos dir e path t s' hlast h
      by_cases he : EMIN < e
      · rw [trajLoop_zero O inT true s pos dir e path he] at h
        cases h
      · rw [trajLoop_low O inT true 0 s pos dir e path he] at h
        simp only [if_pos, Option.some.injEq, Prod.mk.injEq] at h
        obtain ⟨ht, rfl⟩ := h
        subst ht
        refine ⟨path, rfl, ?_, hlast⟩
        rintro rfl
        cases hlast
  | succ fuel ih =>
      intro s pos dir e path t s' hlast h
      by_cases he : EMIN < e
      · rw [trajLoop_succ O inT true fuel s pos dir e path he] at h
        dsimp only at h
        by_cases hin : inT (pos + (O.recoil s pos dir).1 • dir) = true
        · rw [if_neg (by simp [hin])] at h
          exact ih _ _ _ _ _ t s' (by simp) h
        · rw [if_pos (by simp [hin])] at h
          simp only [if_pos, Option.some.injEq, Prod.mk.injEq] at h
          obtain ⟨ht, rfl⟩ := h
          subst ht
          exact ⟨path ++ [pos + (O.recoil s pos dir).1 • dir], rfl, by simp, by simp⟩
      · rw [trajLoop_low O inT true (fuel + 1) s pos dir e path he] at h
        simp only [if_pos, Option.some.injEq, Prod.mk.injEq] at h
        obtain ⟨ht, rfl⟩ := h
        subst ht
        refine ⟨path, rfl, ?_, hlast⟩
        rintro rfl
        cases hlast

/-- C5: whenever `trajectory_with_path` with `record_path = True`
returns (for any oracle, containment predicate, fuel and initial
state), the returned trace is a non-empty list and its last entry is
exactly the returned final position. -/
theorem trajectory_with_path_roundtrip {σ : Type} (O : PhysicsOracle σ) (inT : Vec3 → Bool)
    (fuel : ℕ) (s : σ) (pos dir : Vec3) (e : ℚ) (t : TrajResult) (s' : σ)
    (h : trajectory_with_path O inT fuel s pos dir e true = some (t, s')) :
    ∃ l, t.path = some l ∧ l ≠ [] ∧ l.getLast? = some t.pos := by
  refine trajLoop_path_last O inT fuel s pos dir e (if true then [pos] else []) t s' ?_ h
  simp

/-- Witness for `trajectory_with_path_roundtrip`: a two-step run whose
single collision loses all the energy. -/
theorem trajectory_with_path_roundtrip_witness :
    ∃ l, (⟨⟨0, 0, 1⟩, ⟨0, 0, 1⟩, 0, true, some [⟨0, 0, 0⟩, ⟨0, 0, 1⟩]⟩ : TrajResult).path =
        some l ∧ l ≠ [] ∧
      l.getLast? =
        some (⟨⟨0, 0, 1⟩, ⟨0, 0, 1⟩, 0, true,
          some [⟨0, 0, 0⟩, ⟨0, 0, 1⟩]⟩ : TrajResult).pos :=
  trajectory_with_path_roundtrip (σ := Unit)
    ⟨fun s _ _ => (1, 0, ⟨0, 0, 1⟩, s), fun a _ => a, fun s a d _ _ => (d, a, s)⟩
    (fun _ => true) 2 () ⟨0, 0, 0⟩ ⟨0, 0, 1⟩ 10
    ⟨⟨0, 0, 1⟩, ⟨0, 0, 1⟩, 0, true, some [⟨0, 0, 0⟩, ⟨0, 0, 1⟩]⟩ ()
    (by norm_num [trajectory_with_path, trajLoop, EMIN, Vec3.smul_def, Vec3.add_def])

/-- The marching-loop guard `distance < max_distance` in step units. -/
theorem march_guard_iff (j : ℕ) : step_size * (j : ℚ) < max_distance ↔ j < 1000 := by
  rw [step_size, max_distance]
  constructor
  · intro h
    by_contra hj
    push_neg at hj
    have hq : (1000 : ℚ) ≤ (j : ℚ) := by exact_mod_cast hj
    linarith
  · intro h
    have hq : (j : ℚ) < 1000 := by exact_mod_cast h
    linarith

/-- The bisection refinement performs exactly as many iterations as
its loop bound. -/
theorem bisectIters_spec (inT : Vec3 → Bool) (t : Bool) :
    ∀ (n : ℕ) (cur back : Vec3), bisectIters inT t n cur back = n := by
  intro n
  induction n with
  | zero => intro cur back; rfl
  | succ n ih =>
      intro cur back
      unfold bisectIters
      dsimp only
      split <;> rw [ih] <;> omega

/-- The marching loop starting at step `k` executes at most `m`
iterations whenever `1000 - k ≤ m`. -/
theorem marchIters_le_aux (inT : Vec3 → Bool) (pos dir : Vec3) (w : Bool) :
    ∀ (m k : ℕ), 1000 - k ≤ m → marchIters inT pos dir w k ≤ m := by
  intro m
  induction m with
  | zero =>
      intro k hk
      unfold marchIters
      rw [dif_neg]
      rw [march_guard_iff]
      omega
  | succ m ih =>
      intro k hk
      unfold marchIters
      dsimp only
      split_ifs with hg hf
      · omega
      · have h1 : marchIters inT pos dir w (k + 1) ≤ m := by
          refine ih (k + 1) ?_
          have := (march_guard_iff k).mp hg
          omega
        omega
      · omega

/-- If the containment state never flips at any sampled marching
distance, the marching loop returns `none`. -/
theorem marchFrom_none_aux (inT : Vec3 → Bool) (pos dir : Vec3) (w : Bool) :
    ∀ (m k : ℕ), 1000 - k ≤ m →
      (∀ j : ℕ, k ≤ j → j < 1000 → inT (pos + (step_size * (j : ℚ)) • dir) = w) →
      marchFrom inT pos dir w k = none := by
  intro m
  induction m with
  | zero =>
      intro k hk hflat
      unfold marchFrom
      rw [dif_neg]
      rw [march_guard_iff]
      omega
  | succ m ih =>
      intro k hk hflat
      unfold marchFrom
      dsimp only
      split_ifs with hg hf
      · exfalso
        have hcur := hflat k le_rfl ((march_guard_iff k).mp hg)
        rw [hcur, bne_self_eq_false] at hf
        cases hf
      · refine ih (k + 1) ?_ (fun j hj hj' => hflat j (by omega) hj')
        have := (march_guard_iff k).mp hg
        omega
      · rfl

/-- C8: the default ray march terminates within a bounded iteration
count — the embedded loop is a total function, `marchIters` (its
iteration count from the start) is at most `max_distance / step_size
= 1000`, and the boundary refinement performs exactly 10 bisection
iterations — and whenever no containment-state flip occurs at any
sampled distance below `max_distance`, `get_intersection` returns the
no-intersection result (`None, np.inf`, modelled as `none`). -/
theorem get_intersection_bounded (inT : Vec3 → Bool) (pos dir : Vec3) :
    marchIters inT pos dir (inT pos) 0 ≤ 1000 ∧
    (∀ (t : Bool) (cur back : Vec3), bisectIters inT t 10 cur back = 10) ∧
    ((∀ j : ℕ, j < 1000 → inT (pos + (step_size * (j : ℚ)) • dir) = inT pos) →
      get_intersection inT pos dir = none) :=
  ⟨marchIters_le_aux inT pos dir (inT pos) 1000 0 (by omega),
   fun t cur back => bisectIters_spec inT t 10 cur back,
   fun hnf =>
     marchFrom_none_aux inT pos dir (inT pos) 1000 0 (by omega)
       (fun j _ hj => hnf j hj)⟩

/-- Witness for `get_intersection_bounded`: a containment test that is
constantly `true` never flips, so no intersection is reported. -/
theorem get_intersection_bounded_witness :
    marchIters (fun _ => true) ⟨0, 0, 0⟩ ⟨0, 0, 1⟩ true 0 ≤ 1000 ∧
    bisectIters (fun _ => true) true 10 ⟨0, 0, 0⟩ ⟨0, 0, 10⟩ = 10 ∧
    get_intersection (fun _ => true) ⟨0, 0, 0⟩ ⟨0, 0, 1⟩ = none :=
  ⟨(get_intersection_bounded (fun _ => true) ⟨0, 0, 0⟩ ⟨0, 0, 1⟩).1,
   (get_intersection_bounded (fun _ => true) ⟨0, 0, 0⟩ ⟨0, 0, 1⟩).2.1 true ⟨0, 0, 0⟩ ⟨0, 0, 10⟩,
   (get_intersection_bounded (fun _ => true) ⟨0, 0, 0⟩ ⟨0, 0, 1⟩).2.2 (fun _ _ => rfl)⟩

/-- The accumulation step never writes `total_ions`. -/
theorem accumIon_total (sqrtQ : ℚ → ℚ) (record : Bool) (maxT i : ℕ) (t : TrajResult)
    (res : SimulationResults) :
    (accumIon sqrtQ record maxT i t res).total_ions = res.total_ions := by
  unfold accumIon
  dsimp only
  split_ifs <;> rfl

/-- The accumulation step increments `count_inside` exactly on
`is_inside`. -/
theorem accumIon_count (sqrtQ : ℚ → ℚ) (record : Bool) (maxT i : ℕ) (t : TrajResult)
    (res : SimulationResults) :
    (accumIon sqrtQ record maxT i t res).count_inside =
      res.count_inside + (if t.is_inside then 1 else 0) := by
  unfold accumIon
  dsimp only
  split_ifs <;> rfl

/-- `runAllLoop` never writes `total_ions`. -/
theorem runAllLoop_total (sqrtQ : ℚ → ℚ) (ion : ℕ → TrajResult) (record : Bool) (maxT : ℕ) :
    ∀ (n i : ℕ) (res : SimulationResults),
      (runAllLoop sqrtQ ion record maxT i n res).total_ions = res.total_ions := by
  intro n
  induction n with
  | zero => intro i res; rfl
  | succ n ih =>
      intro i res
      unfold runAllLoop
      rw [ih, accumIon_total]

/-- The finalization block never writes `total_ions`. -/
theorem finalize_total (sqrtQ : ℚ → ℚ) (res : SimulationResults) :
    (finalize sqrtQ res).total_ions = res.total_ions := by
  unfold finalize
  dsimp only
  split_ifs <;> rfl

/-- The finalization block never writes `count_inside`. -/
theorem finalize_count (sqrtQ : ℚ → ℚ) (res : SimulationResults) :
    (finalize sqrtQ res).count_inside = res.count_inside := by
  unfold finalize
  dsimp only
  split_ifs <;> rfl

/-- With a stop flag that reads true exactly from iteration `k` on,
the loop behaves like the unstopped loop truncated to `min n (k - i)`
remaining iterations. -/
theorem runLoop_stop_cut (sqrtQ : ℚ → ℚ) (ion : ℕ → TrajResult) (stop : ℕ → Bool)
    (record : Bool) (maxT k : ℕ) (hstop : ∀ j, stop j = true ↔ k ≤ j) :
    ∀ (n i : ℕ) (res : SimulationResults),
      runLoop sqrtQ ion stop record maxT i n res =
        runAllLoop sqrtQ ion record maxT i (min n (k - i)) res := by
  intro n
  induction n with
  | zero =>
      intro i res
      rw [Nat.zero_min]
      rfl
  | succ n ih =>
      intro i res
      by_cases hs : k ≤ i
      · have hst : stop i = true := (hstop i).mpr hs
        unfold runLoop
        rw [if_pos hst]
        have hmin : min (n + 1) (k - i) = 0 := by omega
        rw [hmin]
        rfl
      · have hst : stop i = false := by
          rcases Bool.eq_false_or_eq_true (stop i) with h | h
          · exact absurd ((hstop i).mp h) hs
          · exact h
        unfold runLoop
        rw [if_neg (by simp [hst])]
        rw [ih (i + 1)]
        have hmin : min (n + 1) (k - i) = min n (k - (i + 1)) + 1 := by omega
        rw [hmin]
        rfl

/-- C1, amended: when cancellation is requested after `k ≤ N` ions
have completed (the stop flag reads true from iteration `k` on), the
run loop stops early — the result is the finalization of exactly the
first `k` ions' accumulation, and the embedded `run` is a total
function, so no exception is raised — but `SimulationResults.total_ions`
still equals the originally requested count `N`, not `k`: the field is
written once, before the loop, and never updated on early stop. -/
theorem run_stop_early (sqrtQ : ℚ → ℚ) (ion : ℕ → TrajResult) (stop : ℕ → Bool)
    (record : Bool) (maxT nion k : ℕ) (hk : k ≤ nion)
    (hstop : ∀ j, stop j = true ↔ k ≤ j) :
    run sqrtQ ion stop record maxT nion =
      finalize sqrtQ (runAllLoop sqrtQ ion record maxT 0 k
        { SimulationResults.init with total_ions := nion }) ∧
    (run sqrtQ ion stop record maxT nion).total_ions = nion := by
  have hcut := runLoop_stop_cut sqrtQ ion stop record maxT k hstop nion 0
    { SimulationResults.init with total_ions := nion }
  have hmin : min nion (k - 0) = k := by omega
  rw [hmin] at hcut
  constructor
  · unfold run
    rw [hcut]
  · unfold run
    rw [hcut, finalize_total, runAllLoop_total]

/-- Witness for `run_stop_early`: `N = 3`, stop requested after one
ion. -/
theorem run_stop_early_witness :
    run (fun a => a) (fun _ => ⟨⟨0, 0, 100⟩, ⟨0, 0, 1⟩, 1, true, none⟩)
        (fun j => decide (1 ≤ j)) false 10 3 =
      finalize (fun a => a) (runAllLoop (fun a => a)
        (fun _ => ⟨⟨0, 0, 100⟩, ⟨0, 0, 1⟩, 1, true, none⟩) false 10 0 1
        { SimulationResults.init with total_ions := 3 }) ∧
    (run (fun a => a) (fun _ => ⟨⟨0, 0, 100⟩, ⟨0, 0, 1⟩, 1, true, none⟩)
        (fun j => decide (1 ≤ j)) false 10 3).total_ions = 3 :=
  run_stop_early (fun a => a) (fun _ => ⟨⟨0, 0, 100⟩, ⟨0, 0, 1⟩, 1, true, none⟩)
    (fun j => decide (1 ≤ j)) false 10 3 1 (by omega)
    (fun j => by simp)

/-- C1, counterexample: `N = 3` ions all stopping inside at
`(0, 0, 100)`, cancellation requested after the first ion completes
(the flag reads true from iteration 1 on).  The loop completes exactly
`k = 1` ion (`count_inside = 1`), yet `total_ions` is `3 = N`, not `k`
or `k + 1` — refuting the claim that `total_ions` equals the number of
ions actually completed and never `N`. -/
theorem run_stop_counterexample :
    (run (fun a => a) (fun _ => ⟨⟨0, 0, 100⟩, ⟨0, 0, 1⟩, 1, true, none⟩)
        (fun j => decide (1 ≤ j)) false 10 3).count_inside = 1 ∧
    (run (fun a => a) (fun _ => ⟨⟨0, 0, 100⟩, ⟨0, 0, 1⟩, 1, true, none⟩)
        (fun j => decide (1 ≤ j)) false 10 3).total_ions = 3 ∧
    ¬ ((run (fun a => a) (fun _ => ⟨⟨0, 0, 100⟩, ⟨0, 0, 1⟩, 1, true, none⟩)
        (fun j => decide (1 ≤ j)) false 10 3).total_ions = 1 ∨
       (run (fun a => a) (fun _ => ⟨⟨0, 0, 100⟩, ⟨0, 0, 1⟩, 1, true, none⟩)
        (fun j => decide (1 ≤ j)) false 10 3).total_ions = 2) := by
  norm_num [run, runLoop, accumIon, finalize, SimulationResults.init]

/-- With the stop flag never set, the loop is the unstopped loop. -/
theorem runLoop_no_stop (sqrtQ : ℚ → ℚ) (ion : ℕ → TrajResult) (stop : ℕ → Bool)
    (record : Bool) (maxT : ℕ) (hstop : ∀ j, stop j = false) :
    ∀ (n i : ℕ) (res : SimulationResults),
      runLoop sqrtQ ion stop record maxT i n res =
        runAllLoop sqrtQ ion record maxT i n res := by
  intro n
  induction n with
  | zero => intro i res; rfl
  | succ n ih =>
      intro i res
      unfold runLoop
      rw [if_neg (by simp [hstop i])]
      rw [ih (i + 1)]
      rfl

/-- The unstopped loop counts exactly the ions with
`is_inside = true`. -/
theorem runAllLoop_count (sqrtQ : ℚ → ℚ) (ion : ℕ → TrajResult) (record : Bool) (maxT : ℕ) :
    ∀ (n i : ℕ) (res : SimulationResults),
      (runAllLoop sqrtQ ion record maxT i n res).count_inside =
        res.count_inside + (List.range' i n).countP (fun j => (ion j).is_inside) := by
  intro n
  induction n with
  | zero => intro i res; simp [runAllLoop]
  | succ n ih =>
      intro i res
      unfold runAllLoop
      rw [ih, accumIon_count, List.range'_succ, List.countP_cons]
      by_cases hin : (ion i).is_inside
      · simp [hin]
        omega
      · simp [hin]

/-- C4: in a completed run (no cancellation), the `stopped`,
`backscattered` and `transmitted` properties partition `total_ions`;
`backscattered` is the constant `0` — the trajectory loop reports no
boundary-face information, so no exit is ever attributable to a face
and every exited ion is transmitted by convention — and `transmitted`
equals the number of ions whose trajectory left the target
(`is_inside = false`). -/
theorem outcome_counts (sqrtQ : ℚ → ℚ) (ion : ℕ → TrajResult) (stop : ℕ → Bool)
    (record : Bool) (maxT nion : ℕ) (hstop : ∀ j, stop j = false) :
    (run sqrtQ ion stop record maxT nion).stopped +
      (run sqrtQ ion stop record maxT nion).backscattered +
      (run sqrtQ ion stop record maxT nion).transmitted =
        (run sqrtQ ion stop record maxT nion).total_ions ∧
    (run sqrtQ ion stop record maxT nion).backscattered = 0 ∧
    (run sqrtQ ion stop record maxT nion).transmitted =
      (List.range nion).countP (fun j => !(ion j).is_inside) := by
  have hcount : (run sqrtQ ion stop record maxT nion).count_inside =
      (List.range nion).countP (fun j => (ion j).is_inside) := by
    unfold run
    rw [runLoop_no_stop sqrtQ ion stop record maxT hstop, finalize_count,
      runAllLoop_count, List.range_eq_range']
    simp [SimulationResults.init]
  have htotal : (run sqrtQ ion stop record maxT nion).total_ions = nion := by
    unfold run
    rw [runLoop_no_stop sqrtQ ion stop record maxT hstop, finalize_total, runAllLoop_total]
  have hle : (List.range nion).countP (fun j => (ion j).is_inside) ≤ nion := by
    have := List.countP_le_length (l := List.range nion)
      (p := fun j => (ion j).is_inside)
    simpa using this
  have hsplit : (List.range nion).countP (fun j => (ion j).is_inside) +
      (List.range nion).countP (fun j => !(ion j).is_inside) = nion := by
    have := List.length_eq_countP_add_countP (fun j => (ion j).is_inside) (List.range nion)
    simp at this
    omega
  unfold SimulationResults.stopped SimulationResults.backscattered
    SimulationResults.transmitted
  rw [hcount, htotal]
  refine ⟨by omega, rfl, by omega⟩

/-- Witness for `outcome_counts`: two ions, the first stopping inside,
the second leaving the target. -/
theorem outcome_counts_witness :
    (run (fun a => a)
        (fun j => if j = 0 then ⟨⟨0, 0, 50⟩, ⟨0, 0, 1⟩, 1, true, none⟩
          else ⟨⟨0, 0, -5⟩, ⟨0, 0, -1⟩, 30, false, none⟩)
        (fun _ => false) false 10 2).stopped +
      (run (fun a => a)
        (fun j => if j = 0 then ⟨⟨0, 0, 50⟩, ⟨0, 0, 1⟩, 1, true, none⟩
          else ⟨⟨0, 0, -5⟩, ⟨0, 0, -1⟩, 30, false, none⟩)
        (fun _ => false) false 10 2).backscattered +
      (run (fun a => a)
        (fun j => if j = 0 then ⟨⟨0, 0, 50⟩, ⟨0, 0, 1⟩, 1, true, none⟩
          else ⟨⟨0, 0, -5⟩, ⟨0, 0, -1⟩, 30, false, none⟩)
        (fun _ => false) false 10 2).transmitted =
        (run (fun a => a)
        (fun j => if j = 0 then ⟨⟨0, 0, 50⟩, ⟨0, 0, 1⟩, 1, true, none⟩
          else ⟨⟨0, 0, -5⟩, ⟨0, 0, -1⟩, 30, false, none⟩)
        (fun _ => false) false 10 2).total_ions ∧
    (run (fun a => a)
        (fun j => if j = 0 then ⟨⟨0, 0, 50⟩, ⟨0, 0, 1⟩, 1, true, none⟩
          else ⟨⟨0, 0, -5⟩, ⟨0, 0, -1⟩, 30, false, none⟩)
        (fun _ => false) false 10 2).backscattered = 0 ∧
    (run (fun a => a)
        (fun j => if j = 0 then ⟨⟨0, 0, 50⟩, ⟨0, 0, 1⟩, 1, true, none⟩
          else ⟨⟨0, 0, -5⟩, ⟨0, 0, -1⟩, 30, false, none⟩)
        (fun _ => false) false 10 2).transmitted =
      (List.range 2).countP (fun j =>
        !((fun j => if j = 0 then (⟨⟨0, 0, 50⟩, ⟨0, 0, 1⟩, 1, true, none⟩ : TrajResult)
          else ⟨⟨0, 0, -5⟩, ⟨0, 0, -1⟩, 30, false, none⟩) j).is_inside) :=
  outcome_counts (fun a => a)
    (fun j => if j = 0 then ⟨⟨0, 0, 50⟩, ⟨0, 0, 1⟩, 1, true, none⟩
      else ⟨⟨0, 0, -5⟩, ⟨0, 0, -1⟩, 30, false, none⟩)
    (fun _ => false) false 10 2 (fun _ => rfl)

theorem getLastD_eq_lastAux (a d : ℚ) (l : List ℚ) :
    (a :: l).getLastD d = lastAux a l := by
  induction l generalizing a d with
  | nil => rfl
  | cons b t ih =>
      rw [List.getLastD_cons]
      exact ih b a

/-- In a strictly sorted list every element is at most the last one. -/
theorem mem_le_lastAux : ∀ (l : List ℚ) (a : ℚ), List.Chain' (· < ·) (a :: l) →
    ∀ x ∈ a :: l, x ≤ lastAux a l := by
  intro l
  induction l with
  | nil =>
      intro a _ x hx
      rw [List.mem_singleton] at hx
      subst hx
      exact le_refl x
  | cons b t ih =>
      intro a hc x hx
      rcases List.mem_cons.mp hx with rfl | hx'
      · have hab : x < b := (List.chain'_cons.mp hc).1
        have hb : b ≤ lastAux b t :=
          ih b (List.chain'_cons.mp hc).2 b (List.mem_cons_self b t)
        exact le_of_lt (lt_of_lt_of_le hab hb)
      · exact ih b (List.chain'_cons.mp hc).2 x hx'

/-- Below the first boundary of a sorted list, `specScan` finds no
interval. -/
theorem specScan_none_low (z : ℚ) : ∀ (l : List ℚ) (a : ℚ) (i : ℕ),
    z < a → List.Chain' (· < ·) (a :: l) → specScan z (a :: l) i = none := by
  intro l
  induction l with
  | nil => intro a i _ _; rfl
  | cons b t ih =>
      intro a i hz hc
      cases t with
      | nil =>
          unfold specScan
          rw [if_neg (fun h => absurd h.1 (not_le.mpr hz))]
      | cons c t' =>
          unfold specScan
          rw [if_neg (fun h => absurd h.1 (not_le.mpr hz))]
          exact ih b (i + 1) (hz.trans (List.chain'_cons.mp hc).1)
            (List.chain'_cons.mp hc).2

/-- Above every boundary, `specScan` finds no interval. -/
theorem specScan_none_high (z : ℚ) : ∀ (l : List ℚ) (a : ℚ) (i : ℕ),
    (∀ x ∈ a :: l, x < z) → specScan z (a :: l) i = none := by
  intro l
  induction l with
  | nil => intro a i _; rfl
  | cons b t ih =>
      intro a i hall
      cases t with
      | nil =>
          unfold specScan
          rw [if_neg (fun h => absurd (hall b (by simp)) (not_lt.mpr h.2))]
      | cons c t' =>
          unfold specScan
          rw [if_neg (fun h => absurd (hall b (by simp)) (not_lt.mpr (le_of_lt h.2)))]
          exact ih b (i + 1) (fun x hx => hall x (List.mem_cons_of_mem a hx))

/-- The source's half-open scan refines the spec's scan: any index it
finds, the spec scan finds too. -/
theorem layerScan_to_specScan (z : ℚ) : ∀ (l : List ℚ) (a b : ℚ) (i j : ℕ),
    layerScan z (a :: b :: l) i = some j → specScan z (a :: b :: l) i = some j := by
  intro l
  induction l with
  | nil =>
      intro a b i j h
      unfold layerScan at h
      unfold specScan
      by_cases hcond : a ≤ z ∧ z < b
      · rw [if_pos hcond] at h
        rw [if_pos ⟨hcond.1, le_of_lt hcond.2⟩]
        exact h
      · rw [if_neg hcond] at h
        cases h
  | cons c t ih =>
      intro a b i j h
      unfold layerScan at h
      unfold specScan
      by_cases hcond : a ≤ z ∧ z < b
      · rw [if_pos hcond] at h
        rw [if_pos hcond]
        exact h
      · rw [if_neg hcond] at h
        rw [if_neg hcond]
        exact ih b c (i + 1) j h

/-- Conversely, any index the spec scan finds is found by the
half-open scan as well, unless `z` is exactly the last boundary, in
which case the index is the last layer index. -/
theorem specScan_to_layerScan (z : ℚ) : ∀ (l : List ℚ) (a b : ℚ) (i j : ℕ),
    specScan z (a :: b :: l) i = some j →
    layerScan z (a :: b :: l) i = some j ∨
      (z = lastAux a (b :: l) ∧ j = i + l.length) := by
  intro l
  induction l with
  | nil =>
      intro a b i j h
      unfold specScan at h
      by_cases hcond : a ≤ z ∧ z ≤ b
      · rw [if_pos hcond] at h
        injection h with h'
        subst h'
        by_cases hlt : z < b
        · left
          unfold layerScan
          rw [if_pos ⟨hcond.1, hlt⟩]
        · right
          exact ⟨le_antisymm hcond.2 (not_lt.mp hlt), by simp⟩
      · rw [if_neg hcond] at h
        cases h
  | cons c t ih =>
      intro a b i j h
      unfold specScan at h
      by_cases hcond : a ≤ z ∧ z < b
      · rw [if_pos hcond] at h
        left
        unfold layerScan
        rw [if_pos hcond]
        exact h
      · rw [if_neg hcond] at h
        rcases ih b c (i + 1) j h with h' | ⟨hz, hj⟩
        · left
          unfold layerScan
          rw [if_neg hcond]
          exact h'
        · right
          refine ⟨hz, ?_⟩
          simp only [List.length_cons]
          omega

/-- Within `[head, last]` of a sorted boundary list, the spec scan
always finds an interval. -/
theorem specScan_isSome (z : ℚ) : ∀ (l : List ℚ) (a b : ℚ) (i : ℕ),
    List.Chain' (· < ·) (a :: b :: l) → a ≤ z → z ≤ lastAux a (b :: l) →
    (specScan z (a :: b :: l) i).isSome = true := by
  intro l
  induction l with
  | nil =>
      intro a b i _ ha hb
      unfold specScan
      rw [if_pos ⟨ha, hb⟩]
      rfl
  | cons c t ih =>
      intro a b i hc ha hb
      unfold specScan
      by_cases hcond : a ≤ z ∧ z < b
      · rw [if_pos hcond]
        rfl
      · rw [if_neg hcond]
        have hbz : b ≤ z := by
          by_contra hzb
          exact hcond ⟨ha, not_le.mp hzb⟩
        exact ih b c (i + 1) (List.chain'_cons.mp hc).2 hbz hb

/-- C6: for a `MultiLayerGeometry` with strictly sorted boundaries
(at least two), `get_layer_index z` equals the spec-side
characterization `layerIndexSpec`: the index `i` with
`z ∈ [z_i, z_i+1)` (final interval closed), and the sentinel `-1`
outside `[z_0, z_k]`; concretely for boundaries `[0, 100, 300, 500]`,
`z = 50` gives layer 0, `z = 150` gives layer 1 and `z = 600` gives
the sentinel `-1`. -/
theorem get_layer_index_spec_eq (g : MultiLayerGeometry) (z : ℚ)
    (hsort : List.Chain' (· < ·) g.layer_z) (hlen : 2 ≤ g.layer_z.length) :
    g.get_layer_index z = layerIndexSpec g.layer_z z ∧
    (MultiLayerGeometry.mk [0, 100, 300, 500] 0 0 0 0).get_layer_index 50 = 0 ∧
    (MultiLayerGeometry.mk [0, 100, 300, 500] 0 0 0 0).get_layer_index 150 = 1 ∧
    (MultiLayerGeometry.mk [0, 100, 300, 500] 0 0 0 0).get_layer_index 600 = -1 := by
  refine ⟨?_, by decide, by decide, by decide⟩
  rcases hbs : g.layer_z with _ | ⟨a, t⟩
  · rw [hbs] at hlen
    simp at hlen
  rcases t with _ | ⟨b, l⟩
  · rw [hbs] at hlen
    simp at hlen
  rw [hbs] at hsort
  have hzmin : g.z_min = a := by
    rw [MultiLayerGeometry.z_min, hbs]
    rfl
  have hzmax : g.z_max = lastAux a (b :: l) := by
    rw [MultiLayerGeometry.z_max, hbs, getLastD_eq_lastAux]
  rw [MultiLayerGeometry.get_layer_index, layerIndexSpec, hbs, hzmin, hzmax]
  by_cases h1 : z < a
  · rw [if_pos (Or.inl h1), specScan_none_low z (b :: l) a 0 h1 hsort]
  · by_cases h2 : lastAux a (b :: l) < z
    · rw [if_pos (Or.inr h2), specScan_none_high z (b :: l) a 0
        (fun x hx => lt_of_le_of_lt (mem_le_lastAux (b :: l) a hsort x hx) h2)]
    · rw [if_neg (not_or.mpr ⟨h1, h2⟩)]
      obtain ⟨j, hj⟩ := Option.isSome_iff_exists.mp
        (specScan_isSome z l a b 0 hsort (not_lt.mp h1) (not_lt.mp h2))
      rw [hj]
      cases hls : layerScan z (a :: b :: l) 0 with
      | some i =>
          have hsp := layerScan_to_specScan z l a b 0 i hls
          rw [hj] at hsp
          injection hsp with h'
          rw [h']
      | none =>
          rcases specScan_to_layerScan z l a b 0 j hj with hcontra | ⟨hzl, hjl⟩
          · rw [hls] at hcontra
            cases hcontra
          · rw [if_pos hzl]
            subst hjl
            simp only [List.length_cons]
            push_cast
            omega

/-- Witness for `get_layer_index_spec_eq` at the spec's concrete
boundaries. -/
theorem get_layer_index_spec_eq_witness :
    ((MultiLayerGeometry.mk [0, 100, 300, 500] 0 0 0 0).get_layer_index 150 =
      layerIndexSpec (MultiLayerGeometry.mk [0, 100, 300, 500] 0 0 0 0).layer_z 150) ∧
    (MultiLayerGeometry.mk [0, 100, 300, 500] 0 0 0 0).get_layer_index 50 = 0 ∧
    (MultiLayerGeometry.mk [0, 100, 300, 500] 0 0 0 0).get_layer_index 150 = 1 ∧
    (MultiLayerGeometry.mk [0, 100, 300, 500] 0 0 0 0).get_layer_index 600 = -1 :=
  get_layer_index_spec_eq (MultiLayerGeometry.mk [0, 100, 300, 500] 0 0 0 0) 150
    (by norm_num [List.chain'_cons, List.chain'_singleton]) (by decide)

end CyTRIM
